import Mathlib

/-
Verification of the esp32-wifi board module (Go) against its specification.

The development shallowly embeds the two transport backends:
  - the HTTP pin client (gpioPinClient / analogClient in the package file),
  - the BLE discovery state machine and characteristic writer (esp32_ble.go),
together with the JSON bodies exchanged on the wire.  Numbers decoded from
JSON are modelled as rationals (Go decodes every JSON number to float64,
and every float64 value is a rational).  The one float64 arithmetic
operation the code performs, the product dutyCyclePct * 100 in SetPWM, is
modelled by an explicit binary64 rounding function (round to nearest, ties
to even) applied to the exact product, which is precisely IEEE-754
multiplication for operands in range.
-/

namespace Esp32Wifi

/-- JSON values as Go encoding/json decodes them into a map of interface
values: null, booleans, numbers (float64, modelled as rationals), strings,
arrays and objects. -/
inductive Json where
  | null
  | bool (b : Bool)
  | num (q : ℚ)
  | str (s : String)
  | arr (elems : List Json)
  | obj (fields : List (String × Json))
deriving Repr

/-- Lookup of a key in a decoded JSON object.  Go decodes an object into a
map, where a duplicated key keeps the last value, hence the recursion
prefers the later binding. -/
def lookupField : List (String × Json) → String → Option Json
  | [], _ => none
  | (k, v) :: rest, key =>
    match lookupField rest key with
    | some r => some r
    | none => if k = key then some v else none

/-- Whether Go json.Decode of the body into a map-of-interface value
succeeds: it does for an object and also for null, which sets the map to
nil with a nil error; any other top-level value (array, number, string,
boolean) is a returned unmarshalling error. -/
def decodesToMap : Json → Bool
  | .null => true
  | .obj _ => true
  | _ => false

/-- The unchecked cast chain
response["pin_reads"].([]interface\x7b\x7d)[0].(map[string]interface\x7b\x7d)["state"].(float64)
appearing verbatim in analogClient.Read, gpioPinClient.Get and
gpioPinClient.PWM.  It yields the state value when every cast succeeds and
none when any cast would panic (missing key, wrong dynamic type, or index
out of range on an empty list). -/
def extractState : Json → Option ℚ
  | .obj fields =>
    match lookupField fields "pin_reads" with
    | some (.arr (.obj ef :: _)) =>
      match lookupField ef "state" with
      | some (.num q) => some q
      | _ => none
    | _ => none
  | _ => none

/-- The response body has the shape the three read operations expect. -/
def wellShaped (j : Json) : Bool := (extractState j).isSome

/-- Errors returned (as Go error values) by the HTTP pin operations. -/
inductive GoError where
  | atoiError
  | transportError
  | remoteRejected (status : Nat)
  | decodeError
deriving DecidableEq, Repr

/-- Outcome of an operation in the Go code: a returned value, a returned
error, or a runtime panic from an unchecked type assertion. -/
inductive Outcome (α : Type) where
  | ok (a : α)
  | err (e : GoError)
  | panicked
deriving DecidableEq, Repr

/-- The decode step shared by Get, PWM and analog Read: json.Decode into a
map fails (returned error) when the top-level body is neither an object
nor null; on an object the unchecked cast chain runs, panicking when the
shape below the top level is wrong; on null the decode succeeds with a nil
map, every lookup on which yields nil, so the cast chain panics as well. -/
def decodePinState (response : Json) : Outcome ℚ :=
  match response with
  | .obj fields =>
    match extractState (.obj fields) with
    | some q => .ok q
    | none => .panicked
  | .null => .panicked
  | _ => .err .decodeError

/-- Value of a list of decimal digit characters. -/
def digitsToNat (ds : List Char) : Nat :=
  ds.foldl (fun acc c => acc * 10 + (c.toNat - 48)) 0

/-- Go strconv.Atoi (ParseInt base 10, bit size 64): the returned int
together with an error flag, both of which Go always returns.  An optional
sign followed by a non-empty run of decimal digits parses to its value
with a nil error; a malformed string (empty, or a non-digit after the
optional sign) yields 0 with a syntax error; an out-of-range value yields
the clamped MaxInt64 or MinInt64 together with a range error. -/
def goAtoiFull (s : String) : Int × Bool :=
  let signAndDigits : Bool × List Char :=
    match s.data with
    | '+' :: rest => (false, rest)
    | '-' :: rest => (true, rest)
    | cs => (false, cs)
  let neg := signAndDigits.1
  let ds := signAndDigits.2
  if ds.isEmpty then (0, true)
  else if ds.all (fun c => c.isDigit) then
    let v : Int := if neg then -(digitsToNat ds : Int) else (digitsToNat ds : Int)
    if -(2 ^ 63) ≤ v ∧ v ≤ 2 ^ 63 - 1 then (v, false)
    else if v < 0 then (-(2 ^ 63), true)
    else (2 ^ 63 - 1, true)
  else (0, true)

/-- The success view of Atoi used by the HTTP pin operations, which all
return early when a non-nil error accompanies the value: the value on
success, none on any error. -/
def goAtoi (s : String) : Option Int :=
  if (goAtoiFull s).2 = true then none else some (goAtoiFull s).1

/-- Go conversion int(x) on a float64: truncation toward zero. -/
def goFloatToInt (x : ℚ) : Int := if 0 ≤ x then ⌊x⌋ else ⌈x⌉

/-- Rounding of a rational to the nearest integer with ties to even, the
rounding direction of IEEE-754 binary64 arithmetic. -/
def roundHalfEven (y : ℚ) : ℤ :=
  if y - ⌊y⌋ < 1/2 then ⌊y⌋
  else if 1/2 < y - ⌊y⌋ then ⌊y⌋ + 1
  else if ⌊y⌋ % 2 = 0 then ⌊y⌋ else ⌊y⌋ + 1

/-- IEEE-754 binary64 rounding (round to nearest, ties to even) of a
non-negative rational: the value is quantized to 53 significand bits, or
to the fixed quantum 2^(-1074) in the subnormal range.  Overflow to
infinity is not modelled — the products arising in this program stay far
below the float64 maximum.  Go computes dutyCyclePct * 100 as the binary64
rounding of the exact product of the two operands, which is what this
function applies. -/
def roundF64 (x : ℚ) : ℚ :=
  if x ≤ 0 then 0
  else
    let q : ℤ := max (Int.log 2 x - 52) (-1074)
    (roundHalfEven (x / 2 ^ q) : ℚ) * 2 ^ q

/-- The two endpoints the HTTP backend posts to. -/
inductive Endpoint where
  | readPins
  | writePins
deriving DecidableEq, Repr

/-- An HTTP POST request as built by the pin operations: base URL, endpoint
suffix, and the marshalled JSON body (Content-Type application/json). -/
structure HttpReq where
  url : String
  endpoint : Endpoint
  body : Json
deriving Repr

/-- An HTTP response: status code and decoded JSON body. -/
structure HttpResp where
  status : Nat
  body : Json
deriving Repr

/-- Body of a read request: a map with key "pin_reads" holding the one-pin
list, as built by Get, PWM and analog Read. -/
def readBody (pinNum : Int) : Json :=
  .obj [("pin_reads", .arr [.num (pinNum : ℚ)])]

/-- Body of a write request: a map with key "pin_writes" holding one
pin_num/state pair, as built by Set, SetPWM and the BLE Set. -/
def writeBody (pinNum : Int) (state : Int) : Json :=
  .obj [("pin_writes", .arr [.obj [("pin_num", .num (pinNum : ℚ)), ("state", .num (state : ℚ))]])]

/-- The network, as seen through http.Client.Do: either a transport error
or a response. -/
def Respond : Type := HttpReq → Except GoError HttpResp

/-- gpioPinClient.Set: state is 100 for high and 0 for low; the pin name is
parsed with strconv.Atoi (returned error on failure, before any request);
the write request is posted and any non-200 status is a returned error.
The second component records the request that was sent, if any. -/
def gpioPinSet (url pinName : String) (high : Bool) (respond : Respond) :
    Outcome Unit × Option HttpReq :=
  let state : Int := if high then 100 else 0
  match goAtoi pinName with
  | none => (.err .atoiError, none)
  | some pinNum =>
    let req : HttpReq := ⟨url, .writePins, writeBody pinNum state⟩
    match respond req with
    | .error e => (.err e, some req)
    | .ok resp =>
      if resp.status = 200 then (.ok (), some req)
      else (.err (.remoteRejected resp.status), some req)

/-- gpioPinClient.Get: read request for the one pin, requires status 200,
then runs the decode step and compares the state against 100 (float
equality in the Go code). -/
def gpioPinGet (url pinName : String) (respond : Respond) :
    Outcome Bool × Option HttpReq :=
  match goAtoi pinName with
  | none => (.err .atoiError, none)
  | some pinNum =>
    let req : HttpReq := ⟨url, .readPins, readBody pinNum⟩
    match respond req with
    | .error e => (.err e, some req)
    | .ok resp =>
      if resp.status = 200 then
        match decodePinState resp.body with
        | .ok q => (.ok (decide (q = 100)), some req)
        | .err e => (.err e, some req)
        | .panicked => (.panicked, some req)
      else (.err (.remoteRejected resp.status), some req)

/-- gpioPinClient.PWM: same request as Get; the raw numeric state is
returned unchanged as the duty cycle (no scaling on read). -/
def gpioPinPWM (url pinName : String) (respond : Respond) :
    Outcome ℚ × Option HttpReq :=
  match goAtoi pinName with
  | none => (.err .atoiError, none)
  | some pinNum =>
    let req : HttpReq := ⟨url, .readPins, readBody pinNum⟩
    match respond req with
    | .error e => (.err e, some req)
    | .ok resp =>
      if resp.status = 200 then
        match decodePinState resp.body with
        | .ok q => (.ok q, some req)
        | .err e => (.err e, some req)
        | .panicked => (.panicked, some req)
      else (.err (.remoteRejected resp.status), some req)

/-- gpioPinClient.SetPWM: the wire state is int(dutyCyclePct * 100),
where the product is the float64 multiplication (binary64 rounding of the
exact product) and the int conversion truncates toward zero. -/
def gpioPinSetPWM (url pinName : String) (dutyCyclePct : ℚ) (respond : Respond) :
    Outcome Unit × Option HttpReq :=
  match goAtoi pinName with
  | none => (.err .atoiError, none)
  | some pinNum =>
    let req : HttpReq :=
      ⟨url, .writePins, writeBody pinNum (goFloatToInt (roundF64 (dutyCyclePct * 100)))⟩
    match respond req with
    | .error e => (.err e, some req)
    | .ok resp =>
      if resp.status = 200 then (.ok (), some req)
      else (.err (.remoteRejected resp.status), some req)

/-- analogClient.Read: same read request and decode step; the state is
converted with int(state) and wrapped as the analog value. -/
def analogRead (url analogName : String) (respond : Respond) :
    Outcome Int × Option HttpReq :=
  match goAtoi analogName with
  | none => (.err .atoiError, none)
  | some pinNum =>
    let req : HttpReq := ⟨url, .readPins, readBody pinNum⟩
    match respond req with
    | .error e => (.err e, some req)
    | .ok resp =>
      if resp.status = 200 then
        match decodePinState resp.body with
        | .ok q => (.ok (goFloatToInt q), some req)
        | .err e => (.err e, some req)
        | .panicked => (.panicked, some req)
      else (.err (.remoteRejected resp.status), some req)

/-- A well-shaped read response reporting the given state for the pin, as
an echoing stub backend would produce it. -/
def goodPinResponse (q : ℚ) : Json :=
  .obj [("pin_reads", .arr [.obj [("state", .num q)]])]

/-- The HTTP board configuration: the base URL (validated non-empty by the
external collaborator before construction). -/
structure Config where
  url : String
deriving DecidableEq, Repr

/-- The HTTP-backed board object: the fields of esp32WifiEsp32Wifi that the
pin operations read (resource name and base URL). -/
structure WifiBoard where
  name : String
  url : String
deriving DecidableEq, Repr

/-- NewEsp32Wifi: builds the board struct and returns a nil error; no
request is issued and the URL is not validated.  The second component
records the HTTP requests performed during construction. -/
def newEsp32Wifi (name : String) (conf : Config) :
    Except GoError WifiBoard × List HttpReq :=
  (.ok ⟨name, conf.url⟩, [])

/-- A GPIO pin handle as returned by GPIOPinByName: the raw name string is
stored without parsing or validation. -/
structure GpioPinHandle where
  url : String
  pinName : String
deriving DecidableEq, Repr

/-- GPIOPinByName: always succeeds, storing the name unparsed. -/
def gpioPinByName (b : WifiBoard) (name : String) : Except GoError GpioPinHandle :=
  .ok ⟨b.url, name⟩

/-- An analog pin handle as returned by AnalogByName: the raw name string
is stored without parsing or validation. -/
structure AnalogHandle where
  url : String
  analogName : String
deriving DecidableEq, Repr

/-- AnalogByName: always succeeds, storing the name unparsed. -/
def analogByName (b : WifiBoard) (name : String) : Except GoError AnalogHandle :=
  .ok ⟨b.url, name⟩

/-- A BLE advertisement as delivered to the scan callback: local name,
address and signal strength. -/
structure Advert where
  localName : String
  address : String
  rssi : Int
deriving DecidableEq, Repr

/-- strings.EqualFold, restricted to simple case folding: the two strings
are equal character by character after lowering case. -/
def eqFold (a b : String) : Bool :=
  a.data.map Char.toLower == b.data.map Char.toLower

/-- State of the scan rendezvous: the capacity-1 channel deviceFound (its
buffered element, consumed once by the constructor), whether StopScan has
been requested, and how many sends on the channel have succeeded. -/
structure ScanState where
  buffer : Option Advert
  stopRequested : Bool
  sendCount : Nat
deriving DecidableEq, Repr

/-- The channel starts empty, the scan running, nothing sent. -/
def initScanState : ScanState := ⟨none, false, 0⟩

/-- One invocation of the scan callback in NewEsp32Ble: on a
case-insensitive name match, a non-blocking send on the capacity-1
channel; when the buffer is free the result is buffered and StopScan is
requested, otherwise the default branch silently drops the result.
Non-matching advertisements are only logged. -/
def scanCallback (target : String) (st : ScanState) (result : Advert) : ScanState :=
  if eqFold result.localName target then
    match st.buffer with
    | none => ⟨some result, true, st.sendCount + 1⟩
    | some _ => st
  else st

/-- The whole scan: the callback processes the advertisements in arrival
order, starting from the empty channel. -/
def runScan (target : String) (adverts : List Advert) : ScanState :=
  adverts.foldl (scanCallback target) initScanState

/-- Construction-time errors of the BLE backend.  The code has no
scan-failed outcome: the scan goroutine only logs its error and cancels a
context the constructor never selects on. -/
inductive BleErr where
  | enableFailed
  | connectFailed
  | timeoutWaitingForDevice
deriving DecidableEq, Repr

/-- The environment NewEsp32Ble runs against: whether adapter.Enable
succeeds, whether the adapter.Scan call itself returns an error, the
advertisements delivered to the callback before the 10-second deadline,
and whether adapter.Connect succeeds. -/
structure BleEnv where
  enableOk : Bool
  scanCallErr : Bool
  adverts : List Advert
  connectOk : Bool
deriving DecidableEq, Repr

/-- The BLE-backed board object: the fields of esp32BleEsp32Ble that later
operations read (configured server name and the connected device address). -/
structure BleBoard where
  btServerName : String
  deviceAddress : String
deriving DecidableEq, Repr

/-- The fixed discovery deadline in NewEsp32Ble, in seconds. -/
def discoveryTimeoutSeconds : Nat := 10

/-- NewEsp32Ble: enable the adapter (failure is fatal), run the scan
concurrently, and block on a two-way select between the deviceFound
channel and the deadline.  A buffered match leads to Connect (failure is
fatal); an empty channel at the deadline is the timeout error.  A
scan-level error is invisible to the select, so it changes nothing here:
the field scanCallErr is deliberately unread, mirroring the discarded
return value of the scan goroutine. -/
def newEsp32Ble (target : String) (env : BleEnv) : Except BleErr BleBoard :=
  if env.enableOk then
    match (runScan target env.adverts).buffer with
    | some result =>
      if env.connectOk then .ok ⟨target, result.address⟩
      else .error .connectFailed
    | none => .error .timeoutWaitingForDevice
  else .error .enableFailed

/-- A GATT characteristic: its UUID and an identity distinguishing it from
others with the same UUID. -/
structure BleChar where
  uuid : String
  charId : Nat
deriving DecidableEq, Repr

/-- A GATT service as the adapter reports it: whether
DiscoverCharacteristics fails for it, and the characteristics it holds. -/
structure BleService where
  discoverErr : Bool
  chars : List BleChar
deriving DecidableEq, Repr

/-- The fixed target UUID parsed in bleGPIOPinClient.Set. -/
def targetUUID : String := "c79b2ca7-f39d-4060-8168-816fa26737b7"

/-- service.DiscoverCharacteristics(uuids): an error for a failing
service, otherwise the characteristics filtered to the requested UUIDs. -/
def discoverCharacteristics (svc : BleService) (uuids : List String) :
    Except Unit (List BleChar) :=
  if svc.discoverErr then .error ()
  else .ok (svc.chars.filter (fun c => uuids.contains c.uuid))

/-- The resolution loop of bleGPIOPinClient.Set: walk the services in
enumeration order, skip a service whose characteristic discovery errors
(continue) or returns no match, and take the first characteristic of the
first service with a non-empty result. -/
def resolveCharacteristic : List BleService → Option BleChar
  | [] => none
  | svc :: rest =>
    match discoverCharacteristics svc [targetUUID] with
    | .error _ => resolveCharacteristic rest
    | .ok [] => resolveCharacteristic rest
    | .ok (c :: _) => some c

/-- Spec-side restatement of the resolution: the first characteristic with
the target UUID across the services in enumeration order, ignoring
services whose discovery fails. -/
def firstTargetChar (services : List BleService) : Option BleChar :=
  services.findSome? (fun svc =>
    if svc.discoverErr then none
    else svc.chars.find? (fun c => c.uuid == targetUUID))

/-- Kind of GATT write used for the payload. -/
inductive WriteKind where
  | withoutResponse
  | withResponse
deriving DecidableEq, Repr

/-- A characteristic write: target characteristic, write kind, payload
(the marshalled JSON body). -/
structure WriteEvent where
  char : BleChar
  kind : WriteKind
  payload : Json
deriving Repr

/-- The writeCharacteristic shim defined in write_linux.go: an
unacknowledged WriteWithoutResponse of the data.  It is dead code — no
function in the repository calls it; bleGPIOPinClient.Set calls the
library method Write on the characteristic instead. -/
def writeCharacteristic (c : BleChar) (data : Json) : WriteEvent :=
  ⟨c, .withoutResponse, data⟩

/-- DeviceCharacteristic.Write as invoked by bleGPIOPinClient.Set
(targetChar.Write of the external bluetooth library): the acknowledged
GATT characteristic write.  Set discards both of its return values. -/
def characteristicWrite (c : BleChar) (data : Json) : WriteEvent :=
  ⟨c, .withResponse, data⟩

/-- Observable outcome of bleGPIOPinClient.Set. -/
inductive BleSetOutcome where
  | errDiscoverServices
  | errCharacteristicNotFound
  | wrote (ev : WriteEvent)
deriving Repr

/-- bleGPIOPinClient.Set: discover all services unfiltered (an error is
returned), resolve the target characteristic, and fail when none matches;
otherwise build the same write body as the HTTP backend — the Atoi error
on the pin name is discarded, so the pin number is whatever value Atoi
returned beside the error (0 for a malformed name, the clamped
MaxInt64/MinInt64 for an out-of-range one) — and call the characteristic
Write, ignoring its result and returning nil unconditionally. -/
def bleSet (pinName : String) (high : Bool)
    (servicesResult : Except Unit (List BleService)) : BleSetOutcome :=
  match servicesResult with
  | .error _ => .errDiscoverServices
  | .ok services =>
    match resolveCharacteristic services with
    | none => .errCharacteristicNotFound
    | some targetChar =>
      let state : Int := if high then 100 else 0
      let pinNum : Int := (goAtoiFull pinName).1
      .wrote (characteristicWrite targetChar (writeBody pinNum state))

/-! ## Helper lemmas -/

/-- A response body that json.Decode cannot unmarshal into a map fails
with a returned error. -/
theorem decodePinState_decode_error (j : Json) (hm : decodesToMap j = false) :
    decodePinState j = .err .decodeError := by
  cases j <;> first | rfl | simp [decodesToMap] at hm

/-- A response body that decodes into a map (an object of the wrong
shape, or null decoding to the nil map) makes the cast chain panic. -/
theorem decodePinState_panics (j : Json) (hm : decodesToMap j = true)
    (hshape : wellShaped j = false) : decodePinState j = .panicked := by
  cases j with
  | null => rfl
  | obj fields =>
    unfold wellShaped at hshape
    simp only [decodePinState]
    cases hx : extractState (.obj fields) with
    | none => rfl
    | some q => rw [hx] at hshape; simp at hshape
  | bool b => simp [decodesToMap] at hm
  | num q => simp [decodesToMap] at hm
  | str s => simp [decodesToMap] at hm
  | arr l => simp [decodesToMap] at hm

/-- A well-shaped body decodes to its state value. -/
theorem decodePinState_ok (j : Json) (h : wellShaped j = true) :
    ∃ q, extractState j = some q ∧ decodePinState j = .ok q := by
  unfold wellShaped at h
  cases j with
  | obj fields =>
    cases hx : extractState (.obj fields) with
    | none => rw [hx] at h; simp at h
    | some q => exact ⟨q, rfl, by simp only [decodePinState]; rw [hx]⟩
  | null => simp [extractState] at h
  | bool b => simp [extractState] at h
  | num q => simp [extractState] at h
  | str s => simp [extractState] at h
  | arr l => simp [extractState] at h

/-- The echoing response decodes to exactly the reported state. -/
theorem decodePinState_good (q : ℚ) :
    decodePinState (goodPinResponse q) = .ok q := rfl

/-- Once the capacity-1 channel holds a value, later callback invocations
change nothing: a matching advertisement hits the default branch and is
dropped, a non-matching one is only logged. -/
theorem foldl_scanCallback_full (target : String) (l : List Advert) (st : ScanState)
    (h : st.buffer.isSome = true) : l.foldl (scanCallback target) st = st := by
  induction l with
  | nil => rfl
  | cons a l ih =>
    have hstep : scanCallback target st a = st := by
      unfold scanCallback
      cases hb : st.buffer with
      | none => rw [hb] at h; simp at h
      | some x => simp only [hb]; split <;> rfl
    rw [List.foldl_cons, hstep]
    exact ih

/-- Request recorded by Set once the pin name parses, independent of the
network outcome. -/
theorem gpioPinSet_sends (url pinName : String) (pinNum : Int) (high : Bool)
    (respond : Respond) (h : goAtoi pinName = some pinNum) :
    (gpioPinSet url pinName high respond).2
      = some ⟨url, .writePins, writeBody pinNum (if high then 100 else 0)⟩ := by
  simp only [gpioPinSet, h]
  cases hresp : respond ⟨url, .writePins, writeBody pinNum (if high then 100 else 0)⟩ with
  | error e => simp [hresp]
  | ok resp =>
    simp only [hresp]
    by_cases hs : resp.status = 200 <;> simp [hs]

/-- Request recorded by SetPWM once the pin name parses, independent of
the network outcome. -/
theorem gpioPinSetPWM_sends (url pinName : String) (pinNum : Int) (d : ℚ)
    (respond : Respond) (h : goAtoi pinName = some pinNum) :
    (gpioPinSetPWM url pinName d respond).2
      = some ⟨url, .writePins, writeBody pinNum (goFloatToInt (roundF64 (d * 100)))⟩ := by
  simp only [gpioPinSetPWM, h]
  cases hresp : respond ⟨url, .writePins, writeBody pinNum (goFloatToInt (roundF64 (d * 100)))⟩ with
  | error e => simp [hresp]
  | ok resp =>
    simp only [hresp]
    by_cases hs : resp.status = 200 <;> simp [hs]

/-- When Atoi reports no error, the value of the full result is the
parsed value. -/
theorem goAtoiFull_val_of_some (s : String) (n : Int) (h : goAtoi s = some n) :
    (goAtoiFull s).1 = n := by
  unfold goAtoi at h
  split at h
  · exact absurd h (by simp)
  · exact Option.some.inj h

/-- Round-half-even of an integer is that integer. -/
theorem roundHalfEven_intCast (m : ℤ) : roundHalfEven (m : ℚ) = m := by
  simp [roundHalfEven]

/-- Characterization of Int.log base 2 on positive rationals by the
enclosing binade. -/
theorem int_log2_eq (x : ℚ) (e : ℤ) (hx : 0 < x)
    (h1 : (2 : ℚ) ^ e ≤ x) (h2 : x < (2 : ℚ) ^ (e + 1)) : Int.log 2 x = e := by
  have hb : (1 : ℕ) < 2 := one_lt_two
  have hcast : ((2 : ℕ) : ℚ) = 2 := by norm_num
  have hle : e ≤ Int.log 2 x := by
    rw [← Int.zpow_le_iff_le_log hb hx, hcast]
    exact h1
  have hlt : Int.log 2 x < e + 1 := by
    rw [← Int.lt_zpow_iff_log_lt hb hx, hcast]
    exact h2
  omega

/-- A positive rational that is an integer multiple of its own binade
quantum (53 significand bits within the normal range) is a float64 value:
binary64 rounding returns it unchanged. -/
theorem roundF64_eq_self (x : ℚ) (e m : ℤ) (hx : 0 < x)
    (h1 : (2 : ℚ) ^ e ≤ x) (h2 : x < (2 : ℚ) ^ (e + 1)) (he : -1022 ≤ e)
    (hm : x = (m : ℚ) * (2 : ℚ) ^ (e - 52)) : roundF64 x = x := by
  have hlog := int_log2_eq x e hx h1 h2
  simp only [roundF64, if_neg (not_le.mpr hx), hlog]
  have hq : max (e - 52) (-1074) = e - 52 := max_eq_left (by omega)
  rw [hq]
  have hz : ((2 : ℚ) ^ (e - 52)) ≠ 0 := zpow_ne_zero _ two_ne_zero
  have hdiv : x / (2 : ℚ) ^ (e - 52) = (m : ℚ) := by
    rw [hm, mul_div_assoc, div_self hz, mul_one]
  rw [hdiv, roundHalfEven_intCast, ← hm]

/-- Get against a 200 response decoding to state q yields the comparison
with 100. -/
theorem gpioPinGet_good (url pinName : String) (pinNum : Int) (q : ℚ)
    (h : goAtoi pinName = some pinNum) :
    (gpioPinGet url pinName (fun _ => .ok ⟨200, goodPinResponse q⟩)).1
      = .ok (decide (q = 100)) := by
  simp [gpioPinGet, h, decodePinState_good]

/-- PWM against a 200 response decoding to state q yields q unchanged. -/
theorem gpioPinPWM_good (url pinName : String) (pinNum : Int) (q : ℚ)
    (h : goAtoi pinName = some pinNum) :
    (gpioPinPWM url pinName (fun _ => .ok ⟨200, goodPinResponse q⟩)).1 = .ok q := by
  simp [gpioPinPWM, h, decodePinState_good]

/-- The two filter predicates of the resolution loop and of its spec-side
restatement agree. -/
theorem contains_singleton_eq (c : BleChar) :
    ([targetUUID].contains c.uuid) = (c.uuid == targetUUID) := by
  by_cases h : c.uuid = targetUUID <;> simp [List.contains, h]

/-- The head of a filtered list is the first element satisfying the
predicate. -/
theorem head?_filter_eq_find? {α : Type} (p : α → Bool) (l : List α) :
    (l.filter p).head? = l.find? p := by
  induction l with
  | nil => rfl
  | cons a l ih => by_cases h : p a <;> simp [h, ih]

/-- The resolution loop returns the first characteristic with the target
UUID across the services in enumeration order. -/
theorem resolve_eq_firstTargetChar (services : List BleService) :
    resolveCharacteristic services = firstTargetChar services := by
  induction services with
  | nil => rfl
  | cons svc rest ih =>
    have hfilter : svc.chars.filter (fun c => [targetUUID].contains c.uuid)
        = svc.chars.filter (fun c => c.uuid == targetUUID) :=
      List.filter_congr (fun c _ => contains_singleton_eq c)
    unfold firstTargetChar
    rw [List.findSome?_cons]
    by_cases hd : svc.discoverErr
    · simp only [resolveCharacteristic, discoverCharacteristics, hd, if_true]
      rw [ih]
      rfl
    · simp only [resolveCharacteristic, discoverCharacteristics, hd, if_false, hfilter,
        Bool.false_eq_true]
      rw [← head?_filter_eq_find?]
      cases hf : svc.chars.filter (fun c => c.uuid == targetUUID) with
      | nil => rw [ih]; rfl
      | cons c cs => rfl

/-- Get against a 200 response with an arbitrary body forwards the decode
outcome. -/
theorem gpioPinGet_decode (url pinName : String) (pinNum : Int) (j : Json)
    (h : goAtoi pinName = some pinNum) :
    (gpioPinGet url pinName (fun _ => .ok ⟨200, j⟩)).1
      = (match decodePinState j with
         | .ok q => .ok (decide (q = 100))
         | .err e => .err e
         | .panicked => .panicked) := by
  simp only [gpioPinGet, h]
  cases decodePinState j <;> rfl

/-- PWM against a 200 response with an arbitrary body forwards the decode
outcome. -/
theorem gpioPinPWM_decode (url pinName : String) (pinNum : Int) (j : Json)
    (h : goAtoi pinName = some pinNum) :
    (gpioPinPWM url pinName (fun _ => .ok ⟨200, j⟩)).1
      = (match decodePinState j with
         | .ok q => .ok q
         | .err e => .err e
         | .panicked => .panicked) := by
  simp only [gpioPinPWM, h]
  cases decodePinState j <;> rfl

/-- Analog Read against a 200 response with an arbitrary body forwards the
decode outcome. -/
theorem analogRead_decode (url analogName : String) (pinNum : Int) (j : Json)
    (h : goAtoi analogName = some pinNum) :
    (analogRead url analogName (fun _ => .ok ⟨200, j⟩)).1
      = (match decodePinState j with
         | .ok q => .ok (goFloatToInt q)
         | .err e => .err e
         | .panicked => .panicked) := by
  simp only [analogRead, h]
  cases decodePinState j <;> rfl

/-! ## Claim theorems -/

/-- C1 counterexample: a 200 response whose body is an object of the wrong
shape (key pin_reads holds a number instead of a sequence of maps) makes
Get crash through the unchecked cast — the outcome is a panic, not a
returned typed error. -/
theorem malformed_response_panics_not_error :
    (gpioPinGet "http://b" "4"
        (fun _ => .ok ⟨200, Json.obj [("pin_reads", Json.num 5)]⟩)).1
      = Outcome.panicked := by
  rw [gpioPinGet_decode "http://b" "4" 4 _ (by decide)]
  rw [decodePinState_panics (Json.obj [("pin_reads", Json.num 5)]) rfl (by decide)]

/-- C1 (amended): the decode step of Get, PWM and analog Read crashes via
unchecked cast (panics) on every 200 response whose body decodes into a
map — a JSON object without the expected shape, or null, which decodes
into a nil map — rather than returning a typed error; only a body that is
neither an object nor null at top level yields a returned (generic,
untyped) decode error. -/
theorem decode_of_malformed_body (url pinName : String) (pinNum : Int) (j : Json)
    (h : goAtoi pinName = some pinNum) :
    (decodesToMap j = true → wellShaped j = false →
      (gpioPinGet url pinName (fun _ => .ok ⟨200, j⟩)).1 = .panicked
      ∧ (gpioPinPWM url pinName (fun _ => .ok ⟨200, j⟩)).1 = .panicked
      ∧ (analogRead url pinName (fun _ => .ok ⟨200, j⟩)).1 = .panicked)
    ∧ (decodesToMap j = false →
      (gpioPinGet url pinName (fun _ => .ok ⟨200, j⟩)).1 = .err .decodeError
      ∧ (gpioPinPWM url pinName (fun _ => .ok ⟨200, j⟩)).1 = .err .decodeError
      ∧ (analogRead url pinName (fun _ => .ok ⟨200, j⟩)).1 = .err .decodeError) := by
  constructor
  · intro hm hshape
    rw [gpioPinGet_decode url pinName pinNum _ h, gpioPinPWM_decode url pinName pinNum _ h,
      analogRead_decode url pinName pinNum _ h, decodePinState_panics _ hm hshape]
    exact ⟨rfl, rfl, rfl⟩
  · intro hm
    rw [gpioPinGet_decode url pinName pinNum _ h, gpioPinPWM_decode url pinName pinNum _ h,
      analogRead_decode url pinName pinNum _ h, decodePinState_decode_error _ hm]
    exact ⟨rfl, rfl, rfl⟩

/-- C1 amended witness: a wrong-shaped object body panics Get, a null
body panics PWM (nil map), and a top-level array body returns the decode
error instead. -/
theorem decode_of_malformed_body_witness :
    (gpioPinGet "http://b" "9" (fun _ => .ok ⟨200, Json.obj [("foo", Json.null)]⟩)).1
        = Outcome.panicked
    ∧ (gpioPinPWM "http://b" "9" (fun _ => .ok ⟨200, Json.null⟩)).1
        = Outcome.panicked
    ∧ (analogRead "http://b" "9" (fun _ => .ok ⟨200, Json.arr []⟩)).1
        = Outcome.err .decodeError :=
  ⟨((decode_of_malformed_body "http://b" "9" 9 (Json.obj [("foo", Json.null)])
      (by decide)).1 rfl rfl).1,
   ((decode_of_malformed_body "http://b" "9" 9 Json.null (by decide)).1 rfl rfl).2.1,
   ((decode_of_malformed_body "http://b" "9" 9 (Json.arr []) (by decide)).2 rfl).2.2⟩

/-- The float64 product of 55/64 (a float64 value) with 100 is exact:
85.9375 has 11 significand bits. -/
theorem roundF64_example_exact :
    roundF64 ((55 : ℚ)/64 * 100) = (55 : ℚ)/64 * 100 := by
  refine roundF64_eq_self _ 6 (1375 * 2 ^ 42) (by norm_num) ?_ ?_ (by norm_num) ?_
  · show (2 : ℚ) ^ (6 : ℤ) ≤ (55 : ℚ)/64 * 100
    norm_num
  · show (55 : ℚ)/64 * 100 < (2 : ℚ) ^ ((6 : ℤ) + 1)
    norm_num
  · show (55 : ℚ)/64 * 100 = ((1375 * 2 ^ 42 : ℤ) : ℚ) * (2 : ℚ) ^ ((6 : ℤ) - 52)
    rw [show ((6 : ℤ) - 52) = -(46 : ℤ) by norm_num, zpow_neg]
    rw [show ((46 : ℤ)) = ((46 : ℕ) : ℤ) by norm_num, zpow_natCast]
    rw [eq_comm, mul_inv_eq_iff_eq_mul₀ (by positivity)]
    push_cast
    norm_num

/-- C3 counterexample: for dutyCyclePct 55/64 (a float64 value whose
product with 100 is the exact 85.9375), SetPWM encodes wire state 85 —
the Go int conversion truncates — while rounding to the nearest integer
would give 86. -/
theorem setPWM_truncates_not_rounds :
    (gpioPinSetPWM "http://b" "5" ((55 : ℚ)/64) (fun _ => .ok ⟨200, Json.null⟩)).2
      = some ⟨"http://b", .writePins, writeBody 5 85⟩
    ∧ round ((55 : ℚ)/64 * 100) = 86 := by
  constructor
  · rw [gpioPinSetPWM_sends "http://b" "5" 5 _ _ (by decide), roundF64_example_exact]
    norm_num [goFloatToInt]
  · norm_num [round_eq]

/-- C3 (amended): for every dutyCyclePct d in [0,1] whose float64 product
with 100 is exact (binary64 rounding leaves d*100 unchanged — true of
every duty cycle with a few dozen significand bits), SetPWM encodes the
wire state as the truncation of d*100 toward zero (the floor, d being
non-negative), not its rounding; a round trip through an echoing stub
backend returns that integer through ReadPWM, not d. -/
theorem setPWM_encodes_trunc_roundtrip (url pinName : String) (pinNum : Int) (d : ℚ)
    (respond : Respond) (h : goAtoi pinName = some pinNum) (h0 : 0 ≤ d) (_hd1 : d ≤ 1)
    (hexact : roundF64 (d * 100) = d * 100) :
    (gpioPinSetPWM url pinName d respond).2
        = some ⟨url, .writePins, writeBody pinNum ⌊d * 100⌋⟩
    ∧ (gpioPinPWM url pinName (fun _ => .ok ⟨200, goodPinResponse (⌊d * 100⌋ : ℚ)⟩)).1
        = .ok ((⌊d * 100⌋ : ℚ)) := by
  have htrunc : goFloatToInt (roundF64 (d * 100)) = ⌊d * 100⌋ := by
    rw [hexact]
    unfold goFloatToInt
    rw [if_pos (by positivity)]
  constructor
  · rw [gpioPinSetPWM_sends url pinName pinNum d respond h, htrunc]
  · exact gpioPinPWM_good url pinName pinNum _ h

/-- The float64 product of 1/2 with 100 is the exact 50. -/
theorem roundF64_half_exact : roundF64 ((1 : ℚ)/2 * 100) = (1 : ℚ)/2 * 100 := by
  refine roundF64_eq_self _ 5 (50 * 2 ^ 47) (by norm_num) ?_ ?_ (by norm_num) ?_
  · show (2 : ℚ) ^ (5 : ℤ) ≤ (1 : ℚ)/2 * 100
    norm_num
  · show (1 : ℚ)/2 * 100 < (2 : ℚ) ^ ((5 : ℤ) + 1)
    norm_num
  · show (1 : ℚ)/2 * 100 = ((50 * 2 ^ 47 : ℤ) : ℚ) * (2 : ℚ) ^ ((5 : ℤ) - 52)
    rw [show ((5 : ℤ) - 52) = -(47 : ℤ) by norm_num, zpow_neg]
    rw [show ((47 : ℤ)) = ((47 : ℕ) : ℤ) by norm_num, zpow_natCast]
    rw [eq_comm, mul_inv_eq_iff_eq_mul₀ (by positivity)]
    push_cast
    norm_num

/-- C3 amended witness: dutyCyclePct 1/2 (float64 product exactly 50) is
encoded as wire state 50 and read back as 50. -/
theorem setPWM_encodes_trunc_roundtrip_witness :
    (gpioPinSetPWM "http://b" "5" ((1 : ℚ)/2) (fun _ => .ok ⟨200, Json.null⟩)).2
        = some ⟨"http://b", .writePins, writeBody 5 50⟩
    ∧ (gpioPinPWM "http://b" "5"
        (fun _ => .ok ⟨200, goodPinResponse ((50 : ℤ) : ℚ)⟩)).1 = .ok (((50 : ℤ) : ℚ)) := by
  have h := setPWM_encodes_trunc_roundtrip "http://b" "5" 5 ((1 : ℚ)/2)
      (fun _ => .ok ⟨200, Json.null⟩) (by decide) (by norm_num) (by norm_num)
      roundF64_half_exact
  have hfl : (⌊(1 : ℚ)/2 * 100⌋ : ℤ) = 50 := by norm_num
  rw [hfl] at h
  exact h

/-- C5 counterexample: the pin name "-1" is not a valid non-negative
integer, yet Set does not fail — strconv.Atoi accepts the sign, and the
write request is sent with pin_num -1. -/
theorem negative_pin_name_not_rejected :
    gpioPinSet "http://b" "-1" true (fun _ => .ok ⟨200, Json.null⟩)
      = (.ok (), some ⟨"http://b", .writePins, writeBody (-1) 100⟩) := by
  have h := gpioPinSet_sends "http://b" "-1" (-1) true
      (fun _ => .ok ⟨200, Json.null⟩) (by decide)
  refine Prod.ext ?_ ?_
  · simp [gpioPinSet, show goAtoi "-1" = some (-1) from by decide]
  · simpa using h

/-- C5 (amended): a pin name that strconv.Atoi rejects (not a valid
optionally-signed integer in range) makes each HTTP pin operation fail at
call time with the parse error, before any request is sent; the BLE Set
instead discards the parse error and fires the write with whatever value
Atoi returned beside the error — 0 for a malformed name, the clamped
MaxInt64/MinInt64 for an out-of-range one; and no pin-name validation
happens at construction — the pin handles store any name unparsed. -/
theorem invalid_pin_name_call_time (url pinName : String) (high : Bool) (d : ℚ)
    (respond : Respond) (services : List BleService) (b : WifiBoard)
    (h : goAtoi pinName = none) :
    gpioPinSet url pinName high respond = (.err .atoiError, none)
    ∧ gpioPinGet url pinName respond = (.err .atoiError, none)
    ∧ gpioPinPWM url pinName respond = (.err .atoiError, none)
    ∧ gpioPinSetPWM url pinName d respond = (.err .atoiError, none)
    ∧ analogRead url pinName respond = (.err .atoiError, none)
    ∧ (∀ c, resolveCharacteristic services = some c →
        bleSet pinName high (.ok services)
          = .wrote ⟨c, .withResponse,
              writeBody (goAtoiFull pinName).1 (if high then 100 else 0)⟩)
    ∧ gpioPinByName b pinName = .ok ⟨b.url, pinName⟩
    ∧ analogByName b pinName = .ok ⟨b.url, pinName⟩ := by
  refine ⟨?_, ?_, ?_, ?_, ?_, ?_, rfl, rfl⟩
  · simp [gpioPinSet, h]
  · simp [gpioPinGet, h]
  · simp [gpioPinPWM, h]
  · simp [gpioPinSetPWM, h]
  · simp [analogRead, h]
  · intro c hc
    simp [bleSet, hc, characteristicWrite]

/-- C5 amended witness: the malformed pin name "abc" fails the HTTP Set
before any request while the BLE Set writes pin number 0, and the
out-of-range name of nineteen nines makes the BLE Set write the clamped
MaxInt64. -/
theorem invalid_pin_name_call_time_witness :
    gpioPinSet "http://b" "abc" true (fun _ => .ok ⟨200, Json.null⟩)
        = (.err .atoiError, none)
    ∧ bleSet "abc" true (.ok [⟨false, [⟨targetUUID, 3⟩]⟩])
        = .wrote ⟨⟨targetUUID, 3⟩, .withResponse, writeBody 0 100⟩
    ∧ bleSet "9999999999999999999" true (.ok [⟨false, [⟨targetUUID, 3⟩]⟩])
        = .wrote ⟨⟨targetUUID, 3⟩, .withResponse, writeBody 9223372036854775807 100⟩ := by
  have h1 := invalid_pin_name_call_time "http://b" "abc" true 0
      (fun _ => .ok ⟨200, Json.null⟩) [⟨false, [⟨targetUUID, 3⟩]⟩]
      ⟨"n", "http://b"⟩ (by decide)
  have h2 := invalid_pin_name_call_time "http://b" "9999999999999999999" true 0
      (fun _ => .ok ⟨200, Json.null⟩) [⟨false, [⟨targetUUID, 3⟩]⟩]
      ⟨"n", "http://b"⟩ (by decide)
  refine ⟨h1.1, ?_, ?_⟩
  · have hb := h1.2.2.2.2.2.1 ⟨targetUUID, 3⟩ (by rfl)
    rw [show (goAtoiFull "abc").1 = 0 from by decide] at hb
    exact hb
  · have hb := h2.2.2.2.2.2.1 ⟨targetUUID, 3⟩ (by rfl)
    rw [show (goAtoiFull "9999999999999999999").1 = 9223372036854775807 from by decide] at hb
    exact hb

/-- C7: the boolean mapping — Set sends state 100 for high and 0 for low
on both backends, and Get returns true exactly when the reported state
equals 100, any other numeric state mapping to false. -/
theorem bool_state_mapping_roundtrip (url pinName : String) (pinNum : Int) (q : ℚ)
    (respond : Respond) (services : List BleService) (c : BleChar)
    (h : goAtoi pinName = some pinNum) :
    (gpioPinSet url pinName true respond).2
        = some ⟨url, .writePins, writeBody pinNum 100⟩
    ∧ (gpioPinSet url pinName false respond).2
        = some ⟨url, .writePins, writeBody pinNum 0⟩
    ∧ (resolveCharacteristic services = some c →
        bleSet pinName true (.ok services)
            = .wrote ⟨c, .withResponse, writeBody pinNum 100⟩
        ∧ bleSet pinName false (.ok services)
            = .wrote ⟨c, .withResponse, writeBody pinNum 0⟩)
    ∧ (gpioPinGet url pinName (fun _ => .ok ⟨200, goodPinResponse q⟩)).1
        = .ok (decide (q = 100))
    ∧ (q ≠ 100 →
        (gpioPinGet url pinName (fun _ => .ok ⟨200, goodPinResponse q⟩)).1 = .ok false) := by
  have hv := goAtoiFull_val_of_some pinName pinNum h
  refine ⟨?_, ?_, ?_, gpioPinGet_good url pinName pinNum q h, ?_⟩
  · simpa using gpioPinSet_sends url pinName pinNum true respond h
  · simpa using gpioPinSet_sends url pinName pinNum false respond h
  · intro hc
    constructor <;> simp [bleSet, hc, characteristicWrite, hv]
  · intro hq
    rw [gpioPinGet_good url pinName pinNum q h]
    simp [hq]

/-- C7 witness: with pin 7, Set true sends state 100, and Get against a
stub reporting state 42 returns false. -/
theorem bool_state_mapping_roundtrip_witness :
    (gpioPinSet "http://b" "7" true (fun _ => .ok ⟨200, Json.null⟩)).2
        = some ⟨"http://b", .writePins, writeBody 7 100⟩
    ∧ (gpioPinGet "http://b" "7" (fun _ => .ok ⟨200, goodPinResponse 42⟩)).1
        = .ok false := by
  have h := bool_state_mapping_roundtrip "http://b" "7" 7 42
      (fun _ => .ok ⟨200, Json.null⟩) [] ⟨targetUUID, 0⟩ (by decide)
  exact ⟨h.1, h.2.2.2.2 (by norm_num)⟩

/-- C8: ReadPWM returns the raw numeric state from the response unchanged
— no division by 100 on read — while SetPWM scales by 100 on write; the
asymmetry is preserved. -/
theorem readPWM_returns_raw_state (url pinName : String) (pinNum : Int) (q d : ℚ)
    (respond : Respond) (h : goAtoi pinName = some pinNum) :
    (gpioPinPWM url pinName (fun _ => .ok ⟨200, goodPinResponse q⟩)).1 = .ok q
    ∧ (gpioPinSetPWM url pinName d respond).2
        = some ⟨url, .writePins, writeBody pinNum (goFloatToInt (roundF64 (d * 100)))⟩ :=
  ⟨gpioPinPWM_good url pinName pinNum q h,
   gpioPinSetPWM_sends url pinName pinNum d respond h⟩

/-- C8 witness: a stub reporting state 55 makes ReadPWM return 55 itself,
not 0.55. -/
theorem readPWM_returns_raw_state_witness :
    (gpioPinPWM "http://b" "3" (fun _ => .ok ⟨200, goodPinResponse 55⟩)).1
      = .ok 55 :=
  (readPWM_returns_raw_state "http://b" "3" 3 55 0
    (fun _ => .ok ⟨200, Json.null⟩) (by decide)).1

/-- C4: during a single BLE scan the found signal is delivered exactly
once — the first advertisement whose name case-insensitively equals the
target wins, every later matching advertisement is silently dropped by the
non-blocking send, and the buffered result (consumed once to enter the
Connecting step) is exactly the first match. -/
theorem scan_first_match_wins_exactly_once (target : String) (adverts : List Advert) :
    (runScan target adverts).sendCount
        = (if adverts.any (fun a => eqFold a.localName target) then 1 else 0)
      ∧ (runScan target adverts).buffer
        = adverts.find? (fun a => eqFold a.localName target) := by
  induction adverts with
  | nil => exact ⟨rfl, rfl⟩
  | cons a l ih =>
    by_cases h : eqFold a.localName target
    · have hrun : runScan target (a :: l) = ⟨some a, true, 1⟩ := by
        unfold runScan
        rw [List.foldl_cons]
        have hstep : scanCallback target initScanState a = ⟨some a, true, 1⟩ := by
          simp [scanCallback, initScanState, h]
        rw [hstep]
        exact foldl_scanCallback_full target l _ rfl
      refine ⟨?_, ?_⟩
      · rw [hrun]; simp [h]
      · rw [hrun]; simp [List.find?_cons_of_pos, h]
    · have hstep : scanCallback target initScanState a = initScanState := by
        simp [scanCallback, h]
      have hrun : runScan target (a :: l) = runScan target l := by
        unfold runScan
        rw [List.foldl_cons, hstep]
      refine ⟨?_, ?_⟩
      · rw [hrun, ih.1]; simp [h]
      · rw [hrun, ih.2, List.find?_cons_of_neg _ (by simp [h])]

/-- C2 (code bug): when the scan call itself fails (here: immediately,
with no advertisement delivered), construction does not resolve with a
scan-failed error — the scan goroutine only logs the error, and the
constructor still waits out the deadline and returns the timeout error.
The error type BleErr has no scan-failed constructor because no code path
returns one. -/
theorem scan_error_still_reports_timeout :
    newEsp32Ble "esp32" ⟨true, true, [], true⟩ = .error .timeoutWaitingForDevice := rfl

/-- C6: if no matching advertisement arrives within the fixed 10-second
deadline, construction fails with the timeout error and returns no board;
and every successfully constructed board presupposes adapter enable,
a buffered scan match, and a successful connect — no partially
initialized board is ever returned. -/
theorem ble_construction_failures_return_no_board (target : String) (env : BleEnv) :
    discoveryTimeoutSeconds = 10
    ∧ (env.enableOk = false → newEsp32Ble target env = .error .enableFailed)
    ∧ (env.enableOk = true → (runScan target env.adverts).buffer = none →
        newEsp32Ble target env = .error .timeoutWaitingForDevice)
    ∧ (∀ b, newEsp32Ble target env = .ok b →
        env.enableOk = true ∧ env.connectOk = true
        ∧ ∃ result, (runScan target env.adverts).buffer = some result
            ∧ b = ⟨target, result.address⟩) := by
  refine ⟨rfl, ?_, ?_, ?_⟩
  · intro h; simp [newEsp32Ble, h]
  · intro h hb; simp [newEsp32Ble, h, hb]
  · intro b hok
    by_cases he : env.enableOk
    · cases hb : (runScan target env.adverts).buffer with
      | none => simp [newEsp32Ble, he, hb] at hok
      | some result =>
        by_cases hc : env.connectOk
        · have hbb : b = ⟨target, result.address⟩ := by
            simp [newEsp32Ble, he, hb, hc] at hok
            exact hok.symm
          exact ⟨he, hc, result, rfl, hbb⟩
        · simp [newEsp32Ble, he, hb, hc] at hok
    · simp [newEsp32Ble, he] at hok

/-- C6 witness: a scanner that never delivers a match makes construction
fail with the timeout error. -/
theorem ble_construction_failures_return_no_board_witness :
    newEsp32Ble "myEsp32" ⟨true, false, [⟨"other", "aa:bb", -40⟩], true⟩
      = .error .timeoutWaitingForDevice :=
  (ble_construction_failures_return_no_board "myEsp32"
    ⟨true, false, [⟨"other", "aa:bb", -40⟩], true⟩).2.2.1 rfl (by decide)

/-- C9 counterexample: the write Set performs is the acknowledged
DeviceCharacteristic.Write of the library, not the unacknowledged
fire-and-forget write the claim describes — the repository does define an
unacknowledged shim (writeCharacteristic), but Set never calls it. -/
theorem ble_set_write_is_acknowledged :
    bleSet "4" true (.ok [⟨false, [⟨targetUUID, 1⟩]⟩])
      = .wrote ⟨⟨targetUUID, 1⟩, .withResponse, writeBody 4 100⟩
    ∧ (writeCharacteristic ⟨targetUUID, 1⟩ (writeBody 4 100)).kind
      = .withoutResponse := by
  constructor
  · have hv : (goAtoiFull "4").1 = 4 := by decide
    simp [bleSet, resolveCharacteristic, discoverCharacteristics, targetUUID,
      characteristicWrite, hv]
  · rfl

/-- C9 (amended): BLE Set resolves the target characteristic on every
call by walking all services in enumeration order, taking the first
characteristic matching the fixed UUID, failing with the
characteristic-not-found error when no service yields a match, and
otherwise performing the library's acknowledged characteristic write
(DeviceCharacteristic.Write, not the unused unacknowledged
writeCharacteristic shim) of the encoded body, discarding the write's
results and returning success unconditionally. -/
theorem ble_set_resolution_and_write (pinName : String) (high : Bool)
    (services : List BleService) :
    targetUUID = "c79b2ca7-f39d-4060-8168-816fa26737b7"
    ∧ resolveCharacteristic services = firstTargetChar services
    ∧ (resolveCharacteristic services = none →
        bleSet pinName high (.ok services) = .errCharacteristicNotFound)
    ∧ (∀ c, resolveCharacteristic services = some c →
        bleSet pinName high (.ok services)
          = .wrote ⟨c, .withResponse,
              writeBody (goAtoiFull pinName).1 (if high then 100 else 0)⟩) := by
  refine ⟨rfl, resolve_eq_firstTargetChar services, ?_, ?_⟩
  · intro h; simp [bleSet, h]
  · intro c h; simp [bleSet, h, characteristicWrite]

/-- C9 amended witness: a single healthy service holding one
characteristic with the target UUID makes Set write the encoded body to
it through the acknowledged library write. -/
theorem ble_set_resolution_and_write_witness :
    bleSet "5" true (.ok [⟨false, [⟨targetUUID, 7⟩]⟩])
      = .wrote ⟨⟨targetUUID, 7⟩, .withResponse, writeBody 5 100⟩ := by
  have h := (ble_set_resolution_and_write "5" true [⟨false, [⟨targetUUID, 7⟩]⟩]).2.2.2
      ⟨targetUUID, 7⟩ (by rfl)
  rw [show (goAtoiFull "5").1 = 5 from by decide] at h
  exact h

/-- C10: constructing the HTTP-backed board never fails — for every
config and name it returns the board with a nil error, and performs no
HTTP request (the base URL is neither contacted nor validated). -/
theorem newEsp32Wifi_never_fails_no_io (name : String) (conf : Config) :
    (newEsp32Wifi name conf).1 = .ok ⟨name, conf.url⟩
    ∧ (newEsp32Wifi name conf).2 = [] :=
  ⟨rfl, rfl⟩

end Esp32Wifi

